import Mathlib

/-!
Verification of the schlog console logger (src/index.ts).

The development shallowly embeds the TypeScript source: the `Logger`
class becomes a `LoggerState` record threaded explicitly through each
method; every method `m` of the class becomes a function taking the
state and returning the possibly-updated state together with the
return value of the method.  External collaborators (the chalk text
styler, the Moment.js time formatter, the console output sink and the
JSON.stringify serializer of the host language) are modelled by
executable Lean functions that reproduce the behaviour the source
relies on.
-/

namespace Schlog

/-- The output-stream assignment of a level (`enum LogScope` in the
source); the members carry the string values "stdout" / "stderr". -/
inductive LogScope where
  | STDOUT
  | STDERR
deriving DecidableEq

/-- The string value of a `LogScope` member, as serialized by
JSON.stringify (the TypeScript enum members are the strings
"stdout" and "stderr"). -/
def LogScope.strVal : LogScope → String
  | .STDOUT => "stdout"
  | .STDERR => "stderr"

/-- Model of the chalk styling capabilities used by the source:
`chalk.red.bold`, `chalk.yellow.bold`, `chalk.green.bold`,
`chalk.blue.bold` for the four levels and `chalk.gray` for the
timestamp. -/
inductive Style where
  | redBold
  | yellowBold
  | greenBold
  | blueBold
  | gray
deriving DecidableEq

/-- ANSI opening sequence of a style (model of the chalk collaborator). -/
def styleOpen : Style → String
  | .redBold => "\x1b[31m\x1b[1m"
  | .yellowBold => "\x1b[33m\x1b[1m"
  | .greenBold => "\x1b[32m\x1b[1m"
  | .blueBold => "\x1b[34m\x1b[1m"
  | .gray => "\x1b[90m"

/-- ANSI closing sequence of a style (model of the chalk collaborator). -/
def styleClose : Style → String
  | .redBold => "\x1b[22m\x1b[39m"
  | .yellowBold => "\x1b[22m\x1b[39m"
  | .greenBold => "\x1b[22m\x1b[39m"
  | .blueBold => "\x1b[22m\x1b[39m"
  | .gray => "\x1b[39m"

/-- Applying a chalk style to a text: wrap it in the opening and
closing ANSI sequences.  This models the call `level.color(text)` and
`chalk.gray(text)` in the source. -/
def applyStyle (s : Style) (t : String) : String :=
  styleOpen s ++ t ++ styleClose s

/-- `class LogLevel` of the source: an immutable record of a name, a
chalk styling capability, a numeric priority (lower = more urgent)
and an output scope. -/
structure LogLevel where
  name : String
  color : Style
  priority : Nat
  scope : LogScope
deriving DecidableEq

/-- `new LogLevel("error", chalk.red.bold, 0, LogScope.STDERR)` -/
def errorLevel : LogLevel := ⟨"error", .redBold, 0, .STDERR⟩

/-- `new LogLevel("warn", chalk.yellow.bold, 1, LogScope.STDERR)` -/
def warnLevel : LogLevel := ⟨"warn", .yellowBold, 1, .STDERR⟩

/-- `new LogLevel("info", chalk.green.bold, 2, LogScope.STDOUT)` -/
def infoLevel : LogLevel := ⟨"info", .greenBold, 2, .STDOUT⟩

/-- `new LogLevel("debug", chalk.blue.bold, 3, LogScope.STDOUT)` -/
def debugLevel : LogLevel := ⟨"debug", .blueBold, 3, .STDOUT⟩

/-- The readonly field `logLevels` of `Logger`: the four fixed level
instances in ascending priority order. -/
def logLevels : List LogLevel := [errorLevel, warnLevel, infoLevel, debugLevel]

/-- The readonly field `defaultLogLevel = this.logLevels[2]`, i.e. info. -/
def defaultLogLevel : LogLevel := infoLevel

/-- The two mutable fields of the `Logger` class: the active level
(`private logLevel`) and the Moment.js time format string
(`private timeFormat`, initialized to "HH:mm:ss"). -/
structure LoggerState where
  logLevel : LogLevel
  timeFormat : String
deriving DecidableEq

/-- The wall-clock time handed to the Moment.js collaborator, reduced
to the fields the used patterns can render. -/
structure Time where
  hour : Nat
  minute : Nat
  second : Nat

/-- Render a number as two digits (Moment.js `HH`, `mm`, `ss` tokens). -/
def pad2 (n : Nat) : String :=
  if n < 10 then "0" ++ toString n else toString n

/-- Model of the Moment.js pattern interpreter (external collaborator):
the tokens `HH`, `mm`, `ss` render the corresponding zero-padded time
field, every other character passes through literally.  This covers
the patterns the source uses and lets distinct patterns be told apart. -/
def momentFormatAux (now : Time) : List Char → List Char
  | 'H' :: 'H' :: r => (pad2 now.hour).data ++ momentFormatAux now r
  | 'm' :: 'm' :: r => (pad2 now.minute).data ++ momentFormatAux now r
  | 's' :: 's' :: r => (pad2 now.second).data ++ momentFormatAux now r
  | c :: r => c :: momentFormatAux now r
  | [] => []

/-- `moment().format(pattern)`: render the current time per `pattern`. -/
def momentFormat (now : Time) (pattern : String) : String :=
  ⟨momentFormatAux now pattern.data⟩

/-- JS `parseInt(s)` (radix argument omitted), as specified by
ECMAScript: skip leading whitespace, read an optional sign, switch to
radix 16 after a "0x"/"0X" prefix, then take the longest prefix of
radix digits; no digit at all gives NaN (modelled as `none`). -/
def isJsSpace (c : Char) : Bool :=
  c = ' ' || c = '\t' || c = '\n' || c = '\r' || c = '\x0b' || c = '\x0c'

/-- The numeric value of `c` as a digit in radix `radix`, if it is one. -/
def digitValIn (radix : Nat) (c : Char) : Option Nat :=
  let v : Option Nat :=
    if '0' ≤ c && c ≤ '9' then some (c.toNat - 48)
    else if 'a' ≤ c && c ≤ 'z' then some (c.toNat - 97 + 10)
    else if 'A' ≤ c && c ≤ 'Z' then some (c.toNat - 65 + 10)
    else none
  match v with
  | some n => if n < radix then some n else none
  | none => none

/-- Accumulate the leading radix digits of a character list. -/
def takeDigitsVal (radix : Nat) : List Char → Nat → Nat × Bool
  | [], acc => (acc, false)
  | c :: r, acc =>
    match digitValIn radix c with
    | some d =>
      let (v, _) := takeDigitsVal radix r (acc * radix + d)
      (v, true)
    | none => (acc, false)

/-- JS `parseInt(s)` with the radix argument omitted; `none` is NaN. -/
def parseIntJs (s : String) : Option Int :=
  let l := s.data.dropWhile isJsSpace
  let (sign, l1) : Int × List Char :=
    match l with
    | '-' :: t => (-1, t)
    | '+' :: t => (1, t)
    | t => (1, t)
  let (radix, l2) : Nat × List Char :=
    match l1 with
    | '0' :: 'x' :: t => (16, t)
    | '0' :: 'X' :: t => (16, t)
    | t => (10, t)
  match takeDigitsVal radix l2 0 with
  | (_, false) => none
  | (v, true) => some (sign * (v : Int))

/-- One hexadecimal digit, lowercase (used by the `\u00XX` escapes of
JSON.stringify). -/
def hexDigitChar (n : Nat) : Char :=
  if n < 10 then Char.ofNat (48 + n) else Char.ofNat (97 + n - 10)

/-- The numeric value of a hexadecimal digit character, if it is one. -/
def hexVal (c : Char) : Option Nat :=
  if '0' ≤ c && c ≤ '9' then some (c.toNat - 48)
  else if 'a' ≤ c && c ≤ 'f' then some (c.toNat - 87)
  else if 'A' ≤ c && c ≤ 'F' then some (c.toNat - 55)
  else none

/-- JSON.stringify escaping of a single character inside a string
literal: quote and backslash get a backslash escape, the control
characters below 0x20 use the short escapes b, t, n, f, r where they
exist and `\u00XX` otherwise; every other character stands for itself. -/
def escChar (c : Char) : List Char :=
  if c = '"' then ['\\', '"']
  else if c = '\\' then ['\\', '\\']
  else if c = '\x08' then ['\\', 'b']
  else if c = '\t' then ['\\', 't']
  else if c = '\n' then ['\\', 'n']
  else if c = '\x0c' then ['\\', 'f']
  else if c = '\r' then ['\\', 'r']
  else if c.toNat < 32 then
    ['\\', 'u', '0', '0', hexDigitChar (c.toNat / 16), hexDigitChar (c.toNat % 16)]
  else [c]

/-- JSON.stringify escaping of the characters of a string body. -/
def escapeList (l : List Char) : List Char :=
  l.foldr (fun c acc => escChar c ++ acc) []

/-- JSON.stringify rendering of a string value: escaped body in quotes. -/
def quoteString (s : String) : String :=
  "\"" ++ (⟨escapeList s.data⟩ : String) ++ "\""

/-- Decoder of a JSON string-literal body (the inverse direction of
`escapeList`), used to state that messages survive JSON parsing. -/
def unesc : List Char → Option (List Char)
  | [] => some []
  | c :: rest =>
    if c = '\\' then
      match rest with
      | [] => none
      | e :: r =>
        if e = '"' then (unesc r).map (fun t => '"' :: t)
        else if e = '\\' then (unesc r).map (fun t => '\\' :: t)
        else if e = 'b' then (unesc r).map (fun t => '\x08' :: t)
        else if e = 't' then (unesc r).map (fun t => '\t' :: t)
        else if e = 'n' then (unesc r).map (fun t => '\n' :: t)
        else if e = 'f' then (unesc r).map (fun t => '\x0c' :: t)
        else if e = 'r' then (unesc r).map (fun t => '\r' :: t)
        else if e = 'u' then
          match r with
          | a :: b :: c2 :: d :: r2 =>
            match hexVal a, hexVal b, hexVal c2, hexVal d with
            | some x, some y, some z, some w =>
              (unesc r2).map (fun t => Char.ofNat (((x * 16 + y) * 16 + z) * 16 + w) :: t)
            | _, _, _, _ => none
          | _ => none
        else none
    else (unesc rest).map (fun t => c :: t)

/-- JSON.stringify of a `LogLevel` instance: the `color` field holds a
function value (the chalk capability), which JSON.stringify omits, so
the serialized object has exactly the keys name, priority, scope in
declaration order; the scope enum member serializes as its string
value. -/
def levelJson (l : LogLevel) : String :=
  "\x7b\"name\":" ++ quoteString l.name ++ ",\"priority\":" ++ toString l.priority
    ++ ",\"scope\":" ++ quoteString l.scope.strVal ++ "\x7d"

/-- Method `format(level, message, notime?)`: human-readable line
`LEVELNAME message` with the name uppercased and styled, prefixed by a
bracketed gray timestamp rendered per the configured `timeFormat`
unless `notime` is set.  Returns the state unchanged (the method
assigns no field). -/
def format (st : LoggerState) (level : LogLevel) (message : String)
    (notime : Bool) (now : Time) : LoggerState × String :=
  let time := momentFormat now st.timeFormat
  let line := applyStyle level.color level.name.toUpper ++ " " ++ message
  let line := if !notime then "[" ++ applyStyle .gray time ++ "] " ++ line else line
  (st, line)

/-- Method `formatJson(level, message)`:
`JSON.stringify({ time: moment().format("HH:mm:ss"), level: level, message: message })`.
The time pattern is the fixed literal "HH:mm:ss", not the configured
`timeFormat`.  Returns the state unchanged. -/
def formatJson (st : LoggerState) (level : LogLevel) (message : String)
    (now : Time) : LoggerState × String :=
  let time := momentFormat now "HH:mm:ss"
  let line := "\x7b\"time\":" ++ quoteString time ++ ",\"level\":" ++ levelJson level
    ++ ",\"message\":" ++ quoteString message ++ "\x7d"
  (st, line)

/-- The result of a `log` call: the returned value (`none` models the
bare `return` path, i.e. `undefined`) and the lines written to the
console sink, tagged with the stream they went to. -/
structure LogResult where
  ret : Option String
  writes : List (LogScope × String)
deriving DecidableEq

/-- Method `log(level, message, json?)`: if
`this.logLevel.priority >= level.priority` the line is formatted
(JSON or human per the `json` flag), written with `console.error`
when `level.scope === LogScope.STDERR` and `console.log` otherwise,
and returned; otherwise nothing happens and `undefined` is returned. -/
def log (st : LoggerState) (level : LogLevel) (message : String)
    (json : Bool) (now : Time) : LoggerState × LogResult :=
  if st.logLevel.priority ≥ level.priority then
    let (st1, line) := if json then formatJson st level message now
                       else format st level message false now
    let stream := if level.scope = LogScope.STDERR then LogScope.STDERR else LogScope.STDOUT
    (st1, { ret := some line, writes := [(stream, line)] })
  else
    (st, { ret := none, writes := [] })

/-- Wrapper `error(message, json?)`: `log(this.logLevels[0], ...)`. -/
def error (st : LoggerState) (message : String) (json : Bool) (now : Time) :
    LoggerState × LogResult :=
  log st errorLevel message json now

/-- Wrapper `warn(message, json?)`: `log(this.logLevels[1], ...)`. -/
def warn (st : LoggerState) (message : String) (json : Bool) (now : Time) :
    LoggerState × LogResult :=
  log st warnLevel message json now

/-- Wrapper `info(message, json?)`: `log(this.logLevels[2], ...)`. -/
def info (st : LoggerState) (message : String) (json : Bool) (now : Time) :
    LoggerState × LogResult :=
  log st infoLevel message json now

/-- Wrapper `debug(message, json?)`: `log(this.logLevels[3], ...)`. -/
def debug (st : LoggerState) (message : String) (json : Bool) (now : Time) :
    LoggerState × LogResult :=
  log st debugLevel message json now

/-- Method `setLogLevel(level)`: replaces the active level. -/
def setLogLevel (st : LoggerState) (level : LogLevel) : LoggerState :=
  { st with logLevel := level }

/-- Method `setTimeFormat(format)`: replaces the time format string. -/
def setTimeFormat (st : LoggerState) (fmt : String) : LoggerState :=
  { st with timeFormat := fmt }

/-- Pure core of `getLogLevelByName`:
`this.logLevels[this.logLevels.findIndex(l => l.name === name)]`;
a `findIndex` miss yields -1 and indexing at -1 yields `undefined`,
modelled as `none`. -/
def findLogLevelByName (name : String) : Option LogLevel :=
  logLevels.find? (fun l => l.name = name)

/-- Pure core of `getLogLevelByPriority`: the priority is compared
with `===` against the number obtained from the caller, which can be
negative, hence the `Int` argument. -/
def findLogLevelByPriority (priority : Int) : Option LogLevel :=
  logLevels.find? (fun l => (l.priority : Int) = priority)

/-- Method `getLogLevelByName(name)` (reads no mutable field). -/
def getLogLevelByName (st : LoggerState) (name : String) :
    LoggerState × Option LogLevel :=
  (st, findLogLevelByName name)

/-- Method `getLogLevelByPriority(priority)` (reads no mutable field). -/
def getLogLevelByPriority (st : LoggerState) (priority : Int) :
    LoggerState × Option LogLevel :=
  (st, findLogLevelByPriority priority)

/-- The threshold-resolution part of the constructor: `env` is
`process.env.LOG_LEVEL` (`none` when unset).  `!process.env.LOG_LEVEL`
is true for the absent and for the empty string; otherwise
`isNaN(parseInt(...))` decides between the by-name and the by-priority
lookup, each falling back to `defaultLogLevel` on a miss. -/
def resolveLogLevel (env : Option String) : LogLevel :=
  match env with
  | none => defaultLogLevel
  | some s =>
    if s = "" then defaultLogLevel
    else
      match parseIntJs s with
      | none =>
        match findLogLevelByName s with
        | none => defaultLogLevel
        | some levelFromName => levelFromName
      | some n =>
        match findLogLevelByPriority n with
        | none => defaultLogLevel
        | some levelFromNum => levelFromNum

/-- The constructor `new Logger()`: resolve the threshold from the
configuration string, initialize `timeFormat` to "HH:mm:ss", then call
`this.debug("Using log level: " + this.logLevel.name)`.  Returns the
constructed state and the lines the construction wrote. -/
def mkLogger (env : Option String) (now : Time) :
    LoggerState × List (LogScope × String) :=
  let st : LoggerState := { logLevel := resolveLogLevel env, timeFormat := "HH:mm:ss" }
  let (st1, r) := debug st ("Using log level: " ++ st.logLevel.name) false now
  (st1, r.writes)

/-- The filtering predicate the spec calls `shouldEmit`; the source
inlines it as the guard `this.logLevel.priority >= level.priority` of
`log`. -/
def shouldEmit (st : LoggerState) (level : LogLevel) : Bool :=
  st.logLevel.priority ≥ level.priority

/-! ## Helper lemmas -/

/-- `log` never changes the logger state. -/
theorem log_fst (st : LoggerState) (level : LogLevel) (message : String)
    (json : Bool) (now : Time) : (log st level message json now).1 = st := by
  cases json <;> (rw [log]; split <;> rfl)

/-- The state built by the constructor: the resolved level and the
initial time format. -/
theorem mkLogger_fst (env : Option String) (now : Time) :
    (mkLogger env now).1 = ⟨resolveLogLevel env, "HH:mm:ss"⟩ := by
  rw [mkLogger]
  simp only [debug]
  rw [log_fst]

/-- The output of the constructor is the output of its single `debug`
call. -/
theorem mkLogger_snd (env : Option String) (now : Time) :
    (mkLogger env now).2 =
      (debug ⟨resolveLogLevel env, "HH:mm:ss"⟩
        ("Using log level: " ++ (resolveLogLevel env).name) false now).2.writes := by
  rw [mkLogger]

/-- The resolved threshold is always one of the four fixed levels. -/
theorem resolveLogLevel_mem (env : Option String) :
    resolveLogLevel env ∈ logLevels := by
  have hdef : defaultLogLevel ∈ logLevels := by decide
  cases env with
  | none => exact hdef
  | some s =>
    by_cases hs : s = ""
    · simp [resolveLogLevel, hs, hdef]
    · simp only [resolveLogLevel]
      rw [if_neg hs]
      split
      · split
        · exact hdef
        · next l hn => exact List.mem_of_find?_eq_some hn
      · split
        · exact hdef
        · next l hq => exact List.mem_of_find?_eq_some hq

/-- A name that is none of the four level names finds no level. -/
theorem findLogLevelByName_eq_none (name : String)
    (h : name ∉ ["error", "warn", "info", "debug"]) :
    findLogLevelByName name = none := by
  simp only [List.mem_cons, List.not_mem_nil, or_false, not_or] at h
  obtain ⟨h1, h2, h3, h4⟩ := h
  rw [findLogLevelByName, List.find?_eq_none]
  intro l hl
  fin_cases hl <;> simp [errorLevel, warnLevel, infoLevel, debugLevel] <;>
    [exact fun e => h1 e.symm; exact fun e => h2 e.symm;
     exact fun e => h3 e.symm; exact fun e => h4 e.symm]

/-- A priority outside 0..3 finds no level. -/
theorem findLogLevelByPriority_eq_none (p : Int) (h : ¬(0 ≤ p ∧ p ≤ 3)) :
    findLogLevelByPriority p = none := by
  rw [findLogLevelByPriority, List.find?_eq_none]
  intro l hl
  fin_cases hl <;> simp [errorLevel, warnLevel, infoLevel, debugLevel] <;> omega

/-! ## Claims about filtering and emission -/

/-- Claim C1: a logging call emits (formats and writes) the message
exactly when `activeLevel.priority >= level.priority` — the predicate
the spec calls `shouldEmit` — and with active level warn, error and
warn pass the filter while info and debug are dropped. -/
theorem c1_log_filters_by_priority :
    (∀ (st : LoggerState) (lvl : LogLevel) (msg : String) (json : Bool) (now : Time),
      ((log st lvl msg json now).2.writes ≠ [] ↔ shouldEmit st lvl = true)
      ∧ (shouldEmit st lvl = true ↔ st.logLevel.priority ≥ lvl.priority))
    ∧ (∀ tf : String,
      shouldEmit ⟨warnLevel, tf⟩ errorLevel = true
      ∧ shouldEmit ⟨warnLevel, tf⟩ warnLevel = true
      ∧ shouldEmit ⟨warnLevel, tf⟩ infoLevel = false
      ∧ shouldEmit ⟨warnLevel, tf⟩ debugLevel = false) := by
  constructor
  · intro st lvl msg json now
    constructor
    · rw [log]
      by_cases h : st.logLevel.priority ≥ lvl.priority
      · simp [h, shouldEmit]
      · simp [h, shouldEmit]
    · simp [shouldEmit]
  · intro tf
    exact ⟨rfl, rfl, rfl, rfl⟩

/-- Claim C2: when the filter rejects the level, `log` writes nothing
and returns `undefined` (never the empty string); when it passes,
`log` formats per the `json` flag, writes that line once to the stream
of `level.scope`, and returns exactly that line. -/
theorem c2_log_write_and_return (st : LoggerState) (lvl : LogLevel)
    (msg : String) (json : Bool) (now : Time) :
    (st.logLevel.priority < lvl.priority →
      (log st lvl msg json now).2.ret = none
      ∧ (log st lvl msg json now).2.writes = []
      ∧ (log st lvl msg json now).2.ret ≠ some "")
    ∧ (st.logLevel.priority ≥ lvl.priority →
      (log st lvl msg json now).2.ret =
        some (if json then (formatJson st lvl msg now).2 else (format st lvl msg false now).2)
      ∧ (log st lvl msg json now).2.writes =
        [(lvl.scope,
          if json then (formatJson st lvl msg now).2 else (format st lvl msg false now).2)]) := by
  constructor
  · intro h
    have h' : ¬ st.logLevel.priority ≥ lvl.priority := by omega
    simp [log, h']
  · intro h
    have hscope : (if lvl.scope = LogScope.STDERR then LogScope.STDERR else LogScope.STDOUT)
        = lvl.scope := by
      cases hc : lvl.scope <;> simp
    cases hj : json <;> simp [log, h, hscope]

/-- Witness for C2 at a concrete state and level. -/
theorem c2_witness :
    (⟨infoLevel, "HH:mm:ss"⟩ : LoggerState).logLevel.priority < debugLevel.priority
    ∧ (log ⟨infoLevel, "HH:mm:ss"⟩ debugLevel "x" false ⟨1, 2, 3⟩).2.ret = none :=
  ⟨by decide,
    ((c2_log_write_and_return ⟨infoLevel, "HH:mm:ss"⟩ debugLevel "x" false ⟨1, 2, 3⟩).1
      (by decide)).1⟩

/-! ## Claims about the level registry -/

/-- Claim C5: each fixed level is found again from its name and from
its priority, and any other name or priority yields the not-found
sentinel (the lookups are total, so nothing is ever thrown). -/
theorem c5_lookup_roundtrip :
    (∀ l ∈ logLevels, ∀ st : LoggerState,
      (getLogLevelByName st l.name).2 = some l
      ∧ (getLogLevelByPriority st (l.priority : Int)).2 = some l)
    ∧ (∀ st : LoggerState,
      (getLogLevelByName st "nonexistent").2 = none
      ∧ (getLogLevelByPriority st 99).2 = none)
    ∧ (∀ (st : LoggerState) (name : String), name ∉ ["error", "warn", "info", "debug"] →
      (getLogLevelByName st name).2 = none)
    ∧ (∀ (st : LoggerState) (p : Int), p ∉ ([0, 1, 2, 3] : List Int) →
      (getLogLevelByPriority st p).2 = none) := by
  refine ⟨?_, ?_, ?_, ?_⟩
  · intro l hl st
    fin_cases hl <;> exact ⟨rfl, rfl⟩
  · intro st
    exact ⟨rfl, rfl⟩
  · intro st name h
    show findLogLevelByName name = none
    exact findLogLevelByName_eq_none name h
  · intro st p h
    show findLogLevelByPriority p = none
    refine findLogLevelByPriority_eq_none p ?_
    simp only [List.mem_cons, List.not_mem_nil, or_false, not_or] at h
    omega

/-- Witness for C5 at concrete lookups. -/
theorem c5_witness :
    (errorLevel ∈ logLevels
      ∧ (getLogLevelByName ⟨infoLevel, "HH:mm:ss"⟩ errorLevel.name).2 = some errorLevel)
    ∧ ("sometext" ∉ ["error", "warn", "info", "debug"]
      ∧ (getLogLevelByName ⟨infoLevel, "HH:mm:ss"⟩ "sometext").2 = none)
    ∧ ((-2 : Int) ∉ ([0, 1, 2, 3] : List Int)
      ∧ (getLogLevelByPriority ⟨infoLevel, "HH:mm:ss"⟩ (-2)).2 = none) :=
  ⟨⟨by decide, (c5_lookup_roundtrip.1 errorLevel (by decide) ⟨infoLevel, "HH:mm:ss"⟩).1⟩,
   ⟨by decide, c5_lookup_roundtrip.2.2.1 ⟨infoLevel, "HH:mm:ss"⟩ "sometext" (by decide)⟩,
   ⟨by decide, c5_lookup_roundtrip.2.2.2 ⟨infoLevel, "HH:mm:ss"⟩ (-2) (by decide)⟩⟩

/-! ## Frame conditions -/

/-- Claim C10: `setLogLevel` touches only the active level,
`setTimeFormat` touches only the time format, and every other
operation of the class leaves both mutable fields untouched. -/
theorem c10_frame_conditions (st : LoggerState) (lvl : LogLevel)
    (fmt msg name : String) (json notime : Bool) (now : Time) (p : Int) :
    ((setLogLevel st lvl).logLevel = lvl ∧ (setLogLevel st lvl).timeFormat = st.timeFormat)
    ∧ ((setTimeFormat st fmt).timeFormat = fmt
        ∧ (setTimeFormat st fmt).logLevel = st.logLevel)
    ∧ (log st lvl msg json now).1 = st
    ∧ (error st msg json now).1 = st
    ∧ (warn st msg json now).1 = st
    ∧ (info st msg json now).1 = st
    ∧ (debug st msg json now).1 = st
    ∧ (format st lvl msg notime now).1 = st
    ∧ (formatJson st lvl msg now).1 = st
    ∧ (getLogLevelByName st name).1 = st
    ∧ (getLogLevelByPriority st p).1 = st := by
  refine ⟨⟨rfl, rfl⟩, ⟨rfl, rfl⟩, ?_, ?_, ?_, ?_, ?_, rfl, rfl, rfl, rfl⟩ <;>
    first
      | exact log_fst st lvl msg json now
      | exact log_fst st errorLevel msg json now
      | exact log_fst st warnLevel msg json now
      | exact log_fst st infoLevel msg json now
      | exact log_fst st debugLevel msg json now

/-! ## Claims about threshold resolution at construction -/

/-- Claim C3: the configuration string maps as follows — unset gives
info, "1" gives warn, "99" falls back to info, "debug" gives debug,
"bogus" falls back to info, and any string with a parseable leading
integer takes the numeric-lookup path before any name lookup. -/
theorem c3_threshold_resolution :
    (∀ now, (mkLogger none now).1.logLevel = infoLevel)
    ∧ (∀ now, (mkLogger (some "1") now).1.logLevel = warnLevel)
    ∧ (∀ now, (mkLogger (some "99") now).1.logLevel = infoLevel)
    ∧ (∀ now, (mkLogger (some "debug") now).1.logLevel = debugLevel)
    ∧ (∀ now, (mkLogger (some "bogus") now).1.logLevel = infoLevel)
    ∧ (∀ (s : String) (n : Int) (now : Time), parseIntJs s = some n →
        (mkLogger (some s) now).1.logLevel =
          ((findLogLevelByPriority n).getD defaultLogLevel)) := by
  refine ⟨?_, ?_, ?_, ?_, ?_, ?_⟩
  · intro now; rw [mkLogger_fst]; decide
  · intro now; rw [mkLogger_fst]; decide
  · intro now; rw [mkLogger_fst]; decide
  · intro now; rw [mkLogger_fst]; decide
  · intro now; rw [mkLogger_fst]; decide
  · intro s n now hp
    rw [mkLogger_fst]
    have hs : ¬ s = "" := by
      intro h
      rw [h] at hp
      exact Option.noConfusion hp
    show resolveLogLevel (some s) = _
    simp only [resolveLogLevel]
    rw [if_neg hs, hp]
    cases hq : findLogLevelByPriority n <;> simp [hq]

/-- Witness for C3: the string "2" parses as the integer 2 and takes
the numeric path, resolving to the level of priority 2. -/
theorem c3_witness :
    parseIntJs "2" = some 2
    ∧ (mkLogger (some "2") ⟨1, 2, 3⟩).1.logLevel =
        ((findLogLevelByPriority 2).getD defaultLogLevel) :=
  ⟨by decide, c3_threshold_resolution.2.2.2.2.2 "2" 2 ⟨1, 2, 3⟩ (by decide)⟩

/-- Counterexample to claim C4 as stated: the string "1a" is neither
an integer string "0".."3" nor a level name, yet JS parseInt reads its
leading digit, so construction resolves to warn, not info. -/
theorem c4_counterexample :
    "1a" ∉ ["0", "1", "2", "3", "error", "warn", "info", "debug"]
    ∧ (mkLogger (some "1a") ⟨1, 2, 3⟩).1.logLevel = warnLevel
    ∧ warnLevel ≠ infoLevel := by
  refine ⟨by decide, ?_, by decide⟩
  rw [mkLogger_fst]
  decide

/-- Claim C4, amended: a present configuration string whose JS
parseInt value (when there is one) is not a known priority 0..3 and
that is not one of the four exact level names resolves to info
(silent fallback, no error). -/
theorem c4_unrecognized_falls_back (s : String) (now : Time)
    (hnum : ∀ n : Int, parseIntJs s = some n → ¬(0 ≤ n ∧ n ≤ 3))
    (hname : s ∉ ["error", "warn", "info", "debug"]) :
    (mkLogger (some s) now).1.logLevel = infoLevel := by
  rw [mkLogger_fst]
  show resolveLogLevel (some s) = infoLevel
  by_cases hs : s = ""
  · simp [resolveLogLevel, hs, defaultLogLevel]
  · simp only [resolveLogLevel]
    rw [if_neg hs]
    cases hp : parseIntJs s with
    | none =>
      show (match findLogLevelByName s with
            | none => defaultLogLevel
            | some levelFromName => levelFromName) = infoLevel
      rw [findLogLevelByName_eq_none s hname]
      rfl
    | some n =>
      show (match findLogLevelByPriority n with
            | none => defaultLogLevel
            | some levelFromNum => levelFromNum) = infoLevel
      rw [findLogLevelByPriority_eq_none n (hnum n hp)]
      rfl

/-- Witness for the amended C4: "bogus2" has no leading integer and is
not a level name, so it falls back to info. -/
theorem c4_witness :
    (∀ n : Int, parseIntJs "bogus2" = some n → ¬(0 ≤ n ∧ n ≤ 3))
    ∧ "bogus2" ∉ ["error", "warn", "info", "debug"]
    ∧ (mkLogger (some "bogus2") ⟨1, 2, 3⟩).1.logLevel = infoLevel :=
  ⟨by decide, by decide,
    c4_unrecognized_falls_back "bogus2" ⟨1, 2, 3⟩ (by decide) (by decide)⟩

/-- Claim C6: the constructor makes exactly one announcement call, at
debug level, naming the resolved level; it is filtered by the
just-resolved level, so a line is actually written exactly when the
resolved level is debug itself (and then it is the single debug line
on STDOUT). -/
theorem c6_constructor_announcement (env : Option String) (now : Time) :
    ((mkLogger env now).2 ≠ [] ↔ (mkLogger env now).1.logLevel = debugLevel)
    ∧ (mkLogger env now).2 =
      (if (mkLogger env now).1.logLevel = debugLevel then
        [(LogScope.STDOUT,
          (format (mkLogger env now).1 debugLevel
            ("Using log level: " ++ (mkLogger env now).1.logLevel.name) false now).2)]
      else []) := by
  have hmem := resolveLogLevel_mem env
  rw [mkLogger_fst, mkLogger_snd]
  simp only [logLevels, List.mem_cons, List.not_mem_nil, or_false] at hmem
  rcases hmem with h | h | h | h <;>
    rw [h] <;> simp [debug, log, errorLevel, warnLevel, infoLevel, debugLevel]

/-! ## Lemmas about the JSON string escaping -/

/-- Decoding inverts `hexDigitChar` on the digit range. -/
theorem hexVal_hexDigitChar : ∀ n < 16, hexVal (hexDigitChar n) = some n := by decide

/-- Decoding one escaped character from the front of a literal body
recovers exactly that character. -/
theorem unesc_escChar (c : Char) (r : List Char) :
    unesc (escChar c ++ r) = (unesc r).map (fun t => c :: t) := by
  rw [escChar]
  by_cases h1 : c = '"'
  · subst h1; rw [if_pos rfl, unesc.eq_def]; simp
  rw [if_neg h1]
  by_cases h2 : c = '\\'
  · subst h2; rw [if_pos rfl, unesc.eq_def]; simp
  rw [if_neg h2]
  by_cases h3 : c = '\x08'
  · subst h3; rw [if_pos rfl, unesc.eq_def]; simp
  rw [if_neg h3]
  by_cases h4 : c = '\t'
  · subst h4; rw [if_pos rfl, unesc.eq_def]; simp
  rw [if_neg h4]
  by_cases h5 : c = '\n'
  · subst h5; rw [if_pos rfl, unesc.eq_def]; simp
  rw [if_neg h5]
  by_cases h6 : c = '\x0c'
  · subst h6; rw [if_pos rfl, unesc.eq_def]; simp
  rw [if_neg h6]
  by_cases h7 : c = '\r'
  · subst h7; rw [if_pos rfl, unesc.eq_def]; simp
  rw [if_neg h7]
  by_cases h8 : c.toNat < 32
  · rw [if_pos h8]
    have hhi : hexVal (hexDigitChar (c.toNat / 16)) = some (c.toNat / 16) :=
      hexVal_hexDigitChar _ (by omega)
    have hlo : hexVal (hexDigitChar (c.toNat % 16)) = some (c.toNat % 16) :=
      hexVal_hexDigitChar _ (by omega)
    have h0 : hexVal '0' = some 0 := by decide
    rw [unesc.eq_def]
    simp only [List.cons_append]
    simp [h0, hhi, hlo]
    have hval : c.toNat / 16 * 16 + c.toNat % 16 = c.toNat := by omega
    rw [hval, Char.ofNat_toNat]
  · rw [if_neg h8]
    rw [List.cons_append, List.nil_append, unesc.eq_def]
    simp [h2]

/-- Decoding an escaped literal body recovers the original characters:
the `message` value survives JSON parsing unchanged. -/
theorem unesc_escapeList (l : List Char) : unesc (escapeList l) = some l := by
  induction l with
  | nil => rfl
  | cons c t ih =>
    show unesc (escChar c ++ escapeList t) = some (c :: t)
    rw [unesc_escChar, ih]
    rfl

/-- No digit character is a newline. -/
theorem hexDigitChar_ne_newline : ∀ n < 16, hexDigitChar n ≠ '\n' := by decide

/-- The escape of a character never contains a raw newline. -/
theorem mem_escChar_ne_newline (c x : Char) (hx : x ∈ escChar c) : x ≠ '\n' := by
  rw [escChar] at hx
  by_cases h1 : c = '"'
  · rw [if_pos h1] at hx
    simp only [List.mem_cons, List.not_mem_nil, or_false] at hx
    rcases hx with rfl | rfl <;> decide
  rw [if_neg h1] at hx
  by_cases h2 : c = '\\'
  · rw [if_pos h2] at hx
    simp only [List.mem_cons, List.not_mem_nil, or_false] at hx
    rcases hx with rfl | rfl <;> decide
  rw [if_neg h2] at hx
  by_cases h3 : c = '\x08'
  · rw [if_pos h3] at hx
    simp only [List.mem_cons, List.not_mem_nil, or_false] at hx
    rcases hx with rfl | rfl <;> decide
  rw [if_neg h3] at hx
  by_cases h4 : c = '\t'
  · rw [if_pos h4] at hx
    simp only [List.mem_cons, List.not_mem_nil, or_false] at hx
    rcases hx with rfl | rfl <;> decide
  rw [if_neg h4] at hx
  by_cases h5 : c = '\n'
  · rw [if_pos h5] at hx
    simp only [List.mem_cons, List.not_mem_nil, or_false] at hx
    rcases hx with rfl | rfl <;> decide
  rw [if_neg h5] at hx
  by_cases h6 : c = '\x0c'
  · rw [if_pos h6] at hx
    simp only [List.mem_cons, List.not_mem_nil, or_false] at hx
    rcases hx with rfl | rfl <;> decide
  rw [if_neg h6] at hx
  by_cases h7 : c = '\r'
  · rw [if_pos h7] at hx
    simp only [List.mem_cons, List.not_mem_nil, or_false] at hx
    rcases hx with rfl | rfl <;> decide
  rw [if_neg h7] at hx
  by_cases h8 : c.toNat < 32
  · rw [if_pos h8] at hx
    have hhi : c.toNat / 16 < 16 := by omega
    have hlo : c.toNat % 16 < 16 := by omega
    simp only [List.mem_cons, List.not_mem_nil, or_false] at hx
    rcases hx with rfl | rfl | rfl | rfl | rfl | rfl
    · decide
    · decide
    · decide
    · decide
    · exact hexDigitChar_ne_newline _ hhi
    · exact hexDigitChar_ne_newline _ hlo
  · rw [if_neg h8] at hx
    simp only [List.mem_cons, List.not_mem_nil, or_false] at hx
    subst hx
    exact h5

/-- The escaped body of a string never contains a raw newline. -/
theorem mem_escapeList_ne_newline (l : List Char) (x : Char)
    (hx : x ∈ escapeList l) : x ≠ '\n' := by
  induction l with
  | nil => cases hx
  | cons c t ih =>
    have : x ∈ escChar c ++ escapeList t := hx
    rcases List.mem_append.mp this with h | h
    · exact mem_escChar_ne_newline c x h
    · exact ih h

/-- A quoted JSON string value never contains a raw newline. -/
theorem mem_quoteString_ne_newline (s : String) (x : Char)
    (hx : x ∈ (quoteString s).data) : x ≠ '\n' := by
  rw [quoteString, String.data_append, String.data_append] at hx
  rcases List.mem_append.mp hx with h | h
  · rcases List.mem_append.mp h with h' | h'
    · simp only [List.mem_cons, List.not_mem_nil, or_false] at h'
      subst h'; decide
    · exact mem_escapeList_ne_newline _ x h'
  · simp only [List.mem_cons, List.not_mem_nil, or_false] at h
    subst h; decide

/-- Concatenation preserves newline-freedom. -/
theorem mem_append_ne_newline (s t : String)
    (hs : ∀ x ∈ s.data, x ≠ '\n') (ht : ∀ x ∈ t.data, x ≠ '\n') :
    ∀ x ∈ (s ++ t).data, x ≠ '\n' := by
  intro x hx
  rw [String.data_append] at hx
  rcases List.mem_append.mp hx with h | h
  · exact hs x h
  · exact ht x h

/-- The serialized level descriptor of a fixed level has no newline. -/
theorem mem_levelJson_ne_newline (l : LogLevel) (hl : l ∈ logLevels) :
    ∀ x ∈ (levelJson l).data, x ≠ '\n' := by
  fin_cases hl <;> decide

/-! ## Claims about the formatters -/

/-- Claim C7: `formatJson` produces a single-line JSON record with
exactly the keys time, level, message — the time rendered with the
fixed "HH:mm:ss" pattern regardless of the configured `timeFormat`,
the level descriptor carrying exactly name, priority and scope (the
chalk styler field is omitted by JSON.stringify), and the message
escaped so that JSON parsing recovers it exactly. -/
theorem c7_formatJson_record (st : LoggerState) (lvl : LogLevel) (msg : String)
    (now : Time) (hlvl : lvl ∈ logLevels) :
    ((formatJson st lvl msg now).2 =
      "\x7b\"time\":" ++ quoteString (momentFormat now "HH:mm:ss") ++ ",\"level\":"
        ++ levelJson lvl ++ ",\"message\":" ++ quoteString msg ++ "\x7d")
    ∧ (levelJson lvl =
      "\x7b\"name\":" ++ quoteString lvl.name ++ ",\"priority\":" ++ toString lvl.priority
        ++ ",\"scope\":" ++ quoteString lvl.scope.strVal ++ "\x7d")
    ∧ (∀ x ∈ ((formatJson st lvl msg now).2).data, x ≠ '\n')
    ∧ unesc (escapeList msg.data) = some msg.data
    ∧ (∀ f, (formatJson (setTimeFormat st f) lvl msg now).2 = (formatJson st lvl msg now).2) := by
  refine ⟨rfl, rfl, ?_, unesc_escapeList msg.data, fun f => rfl⟩
  show ∀ x ∈ ("\x7b\"time\":" ++ quoteString (momentFormat now "HH:mm:ss") ++ ",\"level\":"
      ++ levelJson lvl ++ ",\"message\":" ++ quoteString msg ++ "\x7d").data, x ≠ '\n'
  refine mem_append_ne_newline _ _ (mem_append_ne_newline _ _ (mem_append_ne_newline _ _
    (mem_append_ne_newline _ _ (mem_append_ne_newline _ _ ?_ ?_) ?_) ?_) ?_) ?_
  · intro x hx; exact mem_append_ne_newline _ _ (by decide)
      (fun y hy => mem_quoteString_ne_newline _ y hy) x hx
  · decide
  · exact mem_levelJson_ne_newline lvl hlvl
  · decide
  · exact fun x hx => mem_quoteString_ne_newline _ x hx
  · decide

/-- Witness for C7 at a concrete level and message. -/
theorem c7_witness :
    infoLevel ∈ logLevels
    ∧ (∀ x ∈ ((formatJson ⟨infoLevel, "HH:mm:ss"⟩ infoLevel "hello" ⟨1, 2, 3⟩).2).data,
        x ≠ '\n')
    ∧ unesc (escapeList "hello".data) = some "hello".data :=
  ⟨by decide,
   (c7_formatJson_record ⟨infoLevel, "HH:mm:ss"⟩ infoLevel "hello" ⟨1, 2, 3⟩
      (by decide)).2.2.1,
   (c7_formatJson_record ⟨infoLevel, "HH:mm:ss"⟩ infoLevel "hello" ⟨1, 2, 3⟩
      (by decide)).2.2.2.1⟩

/-- Claim C8: two states differing only in `timeFormat` give identical
`formatJson` output, while `formatHuman` output does depend on
`timeFormat`. -/
theorem c8_timeFormat_independence :
    (∀ (st : LoggerState) (f : String) (lvl : LogLevel) (msg : String) (now : Time),
      (formatJson (setTimeFormat st f) lvl msg now).2 = (formatJson st lvl msg now).2)
    ∧ (∃ (st : LoggerState) (f : String) (lvl : LogLevel) (msg : String) (now : Time),
      (format (setTimeFormat st f) lvl msg false now).2 ≠ (format st lvl msg false now).2) := by
  refine ⟨fun st f lvl msg now => rfl, ?_⟩
  exact ⟨⟨infoLevel, "HH:mm:ss"⟩, "HH", infoLevel, "m", ⟨1, 2, 3⟩, by decide⟩

/-- Claim C9: the human formatter renders the uppercased level name
through the level styler, followed by the message; with the time
suppressed the output is exactly that, otherwise it is prefixed by the
bracketed gray time rendered via the configured `timeFormat`. -/
theorem c9_format_human (st : LoggerState) (lvl : LogLevel) (msg : String)
    (notime : Bool) (now : Time) :
    ((format st lvl msg true now).2 =
      applyStyle lvl.color lvl.name.toUpper ++ " " ++ msg)
    ∧ ((format st lvl msg false now).2 =
      "[" ++ applyStyle Style.gray (momentFormat now st.timeFormat) ++ "] "
        ++ (applyStyle lvl.color lvl.name.toUpper ++ " " ++ msg))
    ∧ lvl.name.toUpper.data <:+: ((format st lvl msg notime now).2).data
    ∧ msg.data <:+ ((format st lvl msg notime now).2).data := by
  refine ⟨rfl, rfl, ?_, ?_⟩
  · cases notime <;>
      [refine ⟨("[" ++ applyStyle Style.gray (momentFormat now st.timeFormat) ++ "] ").data
          ++ (styleOpen lvl.color).data,
        (styleClose lvl.color).data ++ (" " ++ msg).data, ?_⟩;
       refine ⟨(styleOpen lvl.color).data,
        (styleClose lvl.color).data ++ (" " ++ msg).data, ?_⟩] <;>
      simp [format, applyStyle, String.data_append]
  · cases notime
    · show msg.data <:+
        ("[" ++ applyStyle Style.gray (momentFormat now st.timeFormat) ++ "] "
          ++ (applyStyle lvl.color lvl.name.toUpper ++ " " ++ msg)).data
      rw [String.data_append]
      refine List.IsSuffix.trans ?_ (List.suffix_append _ _)
      rw [String.data_append]
      exact List.suffix_append _ _
    · show msg.data <:+ ((applyStyle lvl.color lvl.name.toUpper ++ " ") ++ msg).data
      rw [String.data_append]
      exact List.suffix_append _ _

end Schlog
